import Mathlib

/-!
Shallow embedding of the Rivine input-lock machinery (`types/inputlock.go`)
and of the consensus genesis-state constructor (`consensus` package).

Byte strings are modelled as `List Nat` (one entry per byte).  Machine
integers (`uint64` timestamps, lengths) are `Nat`; where the 8-byte wire
width matters the encoding takes `% 2^64` implicitly through `toLE`.
External cryptographic primitives (SHA-256, Ed25519 sign/verify, the
object hasher and the transaction input-signature hash) are parameters of
the embedding, collected in `Prims`: the Go code treats them as opaque
library calls.
-/

namespace Rivine

/-- Byte strings: one `Nat` per byte. -/
abbrev Bytes := List Nat

/-- Little-endian fixed-width integer encoding (`w` bytes).
Modelled from the spec: integers are little-endian fixed-width. -/
def toLE : Nat → Nat → Bytes
  | 0, _ => []
  | w + 1, n => n % 256 :: toLE w (n / 256)

/-- Value of a little-endian byte string. -/
def fromLE : Bytes → Nat
  | [] => 0
  | b :: bs => b + 256 * fromLE bs

/-- Read exactly `n` bytes of the input, returning them and the remainder. -/
def readBytes (n : Nat) (input : Bytes) : Option (Bytes × Bytes) :=
  if n ≤ input.length then some (input.take n, input.drop n) else none

/-- Read a single byte. -/
def readByte (input : Bytes) : Option (Nat × Bytes) :=
  match input with
  | [] => none
  | b :: rest => some (b, rest)

/-- Read an 8-byte little-endian unsigned integer. -/
def readU64 (input : Bytes) : Option (Nat × Bytes) := do
  let (bs, rest) ← readBytes 8 input
  pure (fromLE bs, rest)

/-- Encoding of a byte slice: 8-byte little-endian length followed by the
bytes.  Modelled from the spec: sequences are 8-byte little-endian length
prefix then the concatenated elements. -/
def encSlice (bs : Bytes) : Bytes := toLE 8 bs.length ++ bs

/-- Read a length-prefixed byte slice. -/
def readSlice (input : Bytes) : Option (Bytes × Bytes) := do
  let (n, rest) ← readU64 input
  readBytes n rest

/-- Unlock-type constants (source comments: SingleSignature is 0x01,
AtomicSwap is 0x02; the nil type 0x00 is from the spec). -/
def UnlockTypeNil : Nat := 0

/-- Single-signature unlock type byte (0x01). -/
def UnlockTypeSingleSignature : Nat := 1

/-- Atomic-swap unlock type byte (0x02). -/
def UnlockTypeAtomicSwap : Nat := 2

/-- UnlockHash: a one-byte unlock-type tag plus the 32-byte hash of the
condition encoding (layout modelled from the spec). -/
structure UnlockHash where
  utype : Nat
  hash : Bytes
deriving DecidableEq, Repr

/-- Modelled from the spec: `NewUnlockHash` pairs the type tag with the
condition hash. -/
def NewUnlockHash (t : Nat) (h : Bytes) : UnlockHash := ⟨t, h⟩

/-- The all-zero unlock hash (`UnlockHash{}` in Go: zero type, zero hash). -/
def zeroUnlockHash : UnlockHash := ⟨0, List.replicate 32 0⟩

/-- SiaPublicKey: a 16-byte algorithm specifier plus raw key bytes. -/
structure SiaPublicKey where
  algorithm : Bytes
  key : Bytes
deriving DecidableEq, Repr

/-- The `entropy` algorithm specifier ("entropy" zero-padded to 16 bytes). -/
def SignatureEntropy : Bytes :=
  [101, 110, 116, 114, 111, 112, 121, 0, 0, 0, 0, 0, 0, 0, 0, 0]

/-- The `ed25519` algorithm specifier ("ed25519" zero-padded to 16 bytes). -/
def SignatureEd25519 : Bytes :=
  [101, 100, 50, 53, 53, 49, 57, 0, 0, 0, 0, 0, 0, 0, 0, 0]

/-- Errors surfaced by the input-lock code.  `goPanic` marks the places
where the Go code would panic (failed type assertion / nil dereference)
rather than return an error. -/
inductive Err where
  | msg : String → Err
  | entropyKey : Err
  | invalidPreImageSha256 : Err
  | invalidRedeemer : Err
  | unlockConditionLocked : Err
  | goPanic : Err
deriving DecidableEq, Repr

/-- External cryptographic primitives used by `inputlock.go`; parameters
of the embedding (the Go code calls into the `crypto` package and
`Transaction.InputSigHash`, which are outside the embedded sources).
`inputSigHash i tx extras` stands for `tx.InputSigHash(i, extras...)`;
transactions themselves are opaque (`Nat`). -/
structure Prims where
  hashObject : Bytes → Bytes
  sha256 : Bytes → Bytes
  signHash : Bytes → Nat → Bytes
  verifyHash : Bytes → Bytes → Bytes → Bool
  inputSigHash : Nat → Nat → List Bytes → Bytes

/-- Keys handed to `Lock` (an `interface{}` in Go).  `secretKey` is a
`crypto.SecretKey`; the claim and refund keys are the atomic-swap key
structs; `otherKey` stands for any other dynamic type. -/
inductive Key where
  | secretKey : Nat → Key
  | claimKey : SiaPublicKey → Nat → Bytes → Key
  | refundKey : SiaPublicKey → Nat → Key
  | otherKey : Key
deriving DecidableEq, Repr

/-- `signHashUsingSiaPublicKey`: entropy keys always fail; Ed25519 signs
the input signature hash (the Go type assertion `key.(crypto.SecretKey)`
panics for other key shapes, modelled as `goPanic`); any other algorithm
returns a nil signature and no error. -/
def signHashUsingSiaPublicKey (P : Prims) (pk : SiaPublicKey)
    (inputIndex tx : Nat) (key : Key) (extraObjects : List Bytes) :
    Except Err Bytes :=
  if pk.algorithm = SignatureEntropy then .error .entropyKey
  else if pk.algorithm = SignatureEd25519 then
    match key with
    | .secretKey sk =>
        .ok (P.signHash (P.inputSigHash inputIndex tx extraObjects) sk)
    | _ => .error .goPanic
  else .ok []

/-- `verifyHashUsingSiaPublicKey`: entropy keys always fail; Ed25519
decodes a 32-byte public key and 64-byte signature (the Sia decoder reads
the fixed widths and fails only when the input is shorter) and verifies;
any other algorithm is assumed valid. -/
def verifyHashUsingSiaPublicKey (P : Prims) (pk : SiaPublicKey)
    (inputIndex tx : Nat) (sig : Bytes) (extraObjects : List Bytes) :
    Except Err Unit :=
  if pk.algorithm = SignatureEntropy then .error .entropyKey
  else if pk.algorithm = SignatureEd25519 then
    if pk.key.length < 32 then .error (.msg "could not decode public key")
    else if sig.length < 64 then .error (.msg "could not decode signature")
    else if P.verifyHash (P.inputSigHash inputIndex tx extraObjects)
        (pk.key.take 32) (sig.take 64)
      then .ok ()
      else .error (.msg "invalid signature")
  else .ok ()

/-- `strictSignatureCheck`: entropy passes, Ed25519 demands a 32-byte key
and 64-byte signature, anything else is unrecognized. -/
def strictSignatureCheck (pk : SiaPublicKey) (signature : Bytes) :
    Except Err Unit :=
  if pk.algorithm = SignatureEntropy then .ok ()
  else if pk.algorithm = SignatureEd25519 then
    if pk.key.length ≠ 32 then
      .error (.msg "invalid public key size in transaction")
    else if signature.length ≠ 64 then
      .error (.msg "invalid signature size in transaction")
    else .ok ()
  else .error (.msg "unrecognized public key type in transaction")

/-- Raw condition/fulfillment pair (`RawInputLockFormat`). -/
structure RawInputLockFormat where
  condition : Bytes
  fulfillment : Bytes
deriving DecidableEq, Repr

/-- `UnknownInputLock`: raw condition and fulfillment bytes, stored
verbatim for unregistered unlock types. -/
structure UnknownInputLock where
  condition : Bytes
  fulfillment : Bytes
deriving DecidableEq, Repr

/-- `SingleSignatureInputLock` (0x01): a public key and a signature. -/
structure SingleSignatureInputLock where
  publicKey : SiaPublicKey
  signature : Bytes
deriving DecidableEq, Repr

/-- `AtomicSwapInputLock` (0x02): timelock, sender/receiver unlock
hashes, hashed secret, and the fulfillment fields. -/
structure AtomicSwapInputLock where
  timelock : Nat
  sender : UnlockHash
  receiver : UnlockHash
  hashedSecret : Bytes
  publicKey : SiaPublicKey
  signature : Bytes
  secret : Bytes
deriving DecidableEq, Repr

/-- `AtomicSwapCondition`: the encoding-order struct for the atomic-swap
condition (fields in source order: sender, receiver, hashed secret,
timelock). -/
structure AtomicSwapCondition where
  sender : UnlockHash
  receiver : UnlockHash
  hashedSecret : Bytes
  timelock : Nat
deriving DecidableEq, Repr

/-- `AtomicSwapFulfillment`: the encoding-order struct for the atomic-swap
fulfillment. -/
structure AtomicSwapFulfillment where
  publicKey : SiaPublicKey
  signature : Bytes
  secret : Bytes
deriving DecidableEq, Repr

/-- The closed set of inner lock shapes the embedded sources construct. -/
inductive InputLock where
  | unknown : UnknownInputLock → InputLock
  | single : SingleSignatureInputLock → InputLock
  | atomic : AtomicSwapInputLock → InputLock
deriving DecidableEq, Repr

/-- Sia encoding of a public key: the 16 specifier bytes verbatim, then
the key as a length-prefixed slice (modelled from the spec codec). -/
def encSiaPublicKey (pk : SiaPublicKey) : Bytes :=
  pk.algorithm ++ encSlice pk.key

/-- Parse a public key: 16 specifier bytes, then a length-prefixed key. -/
def readSiaPublicKey (input : Bytes) : Option (SiaPublicKey × Bytes) := do
  let (alg, r1) ← readBytes 16 input
  let (k, r2) ← readSlice r1
  pure (⟨alg, k⟩, r2)

/-- Sia encoding of an unlock hash: type byte then the 32 hash bytes
(modelled from the spec: one-byte tag + 32-byte hash). -/
def encUnlockHash (uh : UnlockHash) : Bytes := uh.utype :: uh.hash

/-- Parse an unlock hash: one type byte then 32 hash bytes. -/
def readUnlockHash (input : Bytes) : Option (UnlockHash × Bytes) := do
  let (t, r1) ← readByte input
  let (h, r2) ← readBytes 32 r1
  pure (⟨t, h⟩, r2)

/-- Encoding of `AtomicSwapCondition` in struct field order. -/
def encASCondition (c : AtomicSwapCondition) : Bytes :=
  encUnlockHash c.sender ++ encUnlockHash c.receiver ++
    c.hashedSecret ++ toLE 8 c.timelock

/-- Parse an `AtomicSwapCondition`. -/
def readASCondition (input : Bytes) : Option (AtomicSwapCondition × Bytes) := do
  let (s, r1) ← readUnlockHash input
  let (r, r2) ← readUnlockHash r1
  let (hs, r3) ← readBytes 32 r2
  let (tl, r4) ← readU64 r3
  pure (⟨s, r, hs, tl⟩, r4)

/-- Encoding of `AtomicSwapFulfillment` in struct field order. -/
def encASFulfillment (f : AtomicSwapFulfillment) : Bytes :=
  encSiaPublicKey f.publicKey ++ encSlice f.signature ++ f.secret

/-- Parse an `AtomicSwapFulfillment`. -/
def readASFulfillment (input : Bytes) :
    Option (AtomicSwapFulfillment × Bytes) := do
  let (pk, r1) ← readSiaPublicKey input
  let (sig, r2) ← readSlice r1
  let (sec, r3) ← readBytes 32 r2
  pure (⟨pk, sig, sec⟩, r3)

/-- `EncodeCondition` of a single-signature lock: the marshalled key. -/
def SingleSignatureInputLock.encodeCondition
    (ss : SingleSignatureInputLock) : Bytes :=
  encSiaPublicKey ss.publicKey

/-- `EncodeFulfillment` of a single-signature lock: the raw signature. -/
def SingleSignatureInputLock.encodeFulfillment
    (ss : SingleSignatureInputLock) : Bytes :=
  ss.signature

/-- `EncodeCondition` of an atomic-swap lock: the marshalled condition. -/
def AtomicSwapInputLock.encodeCondition (a : AtomicSwapInputLock) : Bytes :=
  encASCondition ⟨a.sender, a.receiver, a.hashedSecret, a.timelock⟩

/-- `EncodeFulfillment` of an atomic-swap lock: the marshalled fulfillment. -/
def AtomicSwapInputLock.encodeFulfillment (a : AtomicSwapInputLock) : Bytes :=
  encASFulfillment ⟨a.publicKey, a.signature, a.secret⟩

/-- `EncodeCondition` dispatch (unknown locks return stored bytes). -/
def InputLock.encodeCondition : InputLock → Bytes
  | .unknown u => u.condition
  | .single ss => ss.encodeCondition
  | .atomic a => a.encodeCondition

/-- `EncodeFulfillment` dispatch. -/
def InputLock.encodeFulfillment : InputLock → Bytes
  | .unknown u => u.fulfillment
  | .single ss => ss.encodeFulfillment
  | .atomic a => a.encodeFulfillment

/-- `UnknownInputLock.Decode`: stores both byte strings verbatim. -/
def UnknownInputLock.decode (rf : RawInputLockFormat) :
    Except Err UnknownInputLock :=
  .ok ⟨rf.condition, rf.fulfillment⟩

/-- `SingleSignatureInputLock.Decode`: signature taken verbatim from the
fulfillment bytes, public key unmarshalled from the condition bytes
(trailing condition bytes are ignored by the Sia decoder). -/
def SingleSignatureInputLock.decode (rf : RawInputLockFormat) :
    Except Err SingleSignatureInputLock :=
  match readSiaPublicKey rf.condition with
  | some (pk, _) => .ok ⟨pk, rf.fulfillment⟩
  | none => .error (.msg "could not decode public key")

/-- `AtomicSwapInputLock.Decode`: condition and fulfillment structs are
unmarshalled and their fields copied over. -/
def AtomicSwapInputLock.decode (rf : RawInputLockFormat) :
    Except Err AtomicSwapInputLock :=
  match readASCondition rf.condition with
  | none => .error (.msg "could not decode atomic swap condition")
  | some (c, _) =>
    match readASFulfillment rf.fulfillment with
    | none => .error (.msg "could not decode atomic swap fulfillment")
    | some (f, _) =>
        .ok ⟨c.timelock, c.sender, c.receiver, c.hashedSecret,
          f.publicKey, f.signature, f.secret⟩

/-- `SingleSignatureInputLock.Unlock`: verify the signature. -/
def SingleSignatureInputLock.unlock (P : Prims) (inputIndex tx : Nat)
    (ss : SingleSignatureInputLock) : Except Err Unit :=
  verifyHashUsingSiaPublicKey P ss.publicKey inputIndex tx ss.signature []

/-- The unlock hash `NewSingleSignatureInputLock(pk).UnlockHash()`
computes: the single-signature type byte paired with the object hash of
the marshalled public key. -/
def singleSigUnlockHash (P : Prims) (pk : SiaPublicKey) : UnlockHash :=
  NewUnlockHash UnlockTypeSingleSignature (P.hashObject (encSiaPublicKey pk))

/-- `AtomicSwapInputLock.Unlock`.  `now` stands for `CurrentTimestamp()`.
Before expiry the fulfilling key must hash to the receiver, the signature
(with the secret as extra signed material) must verify, and the secret
must hash to the stored hashed secret; after expiry the key must hash to
the sender and only the signature is checked. -/
def AtomicSwapInputLock.unlock (P : Prims) (now inputIndex tx : Nat)
    (a : AtomicSwapInputLock) : Except Err Unit :=
  let uh := singleSigUnlockHash P a.publicKey
  if now ≤ a.timelock then
    if uh.utype ≠ a.receiver.utype ∨ uh.hash ≠ a.receiver.hash then
      .error .invalidRedeemer
    else
      match verifyHashUsingSiaPublicKey P a.publicKey inputIndex tx
          a.signature [a.secret] with
      | .error e => .error e
      | .ok _ =>
        if a.hashedSecret ≠ P.sha256 a.secret then
          .error .invalidPreImageSha256
        else .ok ()
  else
    if uh.utype ≠ a.sender.utype ∨ uh.hash ≠ a.sender.hash then
      .error .invalidRedeemer
    else
      verifyHashUsingSiaPublicKey P a.publicKey inputIndex tx a.signature []

/-- `Unlock` dispatch: unknown locks always unlock. -/
def InputLock.unlock (P : Prims) (now inputIndex tx : Nat) :
    InputLock → Except Err Unit
  | .unknown _ => .ok ()
  | .single ss => ss.unlock P inputIndex tx
  | .atomic a => a.unlock P now inputIndex tx

/-- `SingleSignatureInputLock.Lock`: refuse when already locked, then
sign the input signature hash. -/
def SingleSignatureInputLock.lock (P : Prims) (inputIndex tx : Nat)
    (key : Key) (ss : SingleSignatureInputLock) :
    Except Err SingleSignatureInputLock :=
  if ss.signature ≠ [] then .error .unlockConditionLocked
  else
    match signHashUsingSiaPublicKey P ss.publicKey inputIndex tx key [] with
    | .error e => .error e
    | .ok s => .ok { ss with signature := s }

/-- `AtomicSwapInputLock.Lock`: claim keys work only before expiry and
must carry the correct pre-image; refund keys only after expiry; any
other key shape is refused. -/
def AtomicSwapInputLock.lock (P : Prims) (now inputIndex tx : Nat)
    (key : Key) (a : AtomicSwapInputLock) :
    Except Err AtomicSwapInputLock :=
  if a.signature ≠ [] then .error .unlockConditionLocked
  else
    match key with
    | .claimKey pk sk secret =>
      if now > a.timelock then
        .error (.msg "atomic swap contract expired already")
      else if a.hashedSecret ≠ P.sha256 secret then
        .error .invalidPreImageSha256
      else
        match signHashUsingSiaPublicKey P pk inputIndex tx
            (.secretKey sk) [secret] with
        | .error e => .error e
        | .ok s =>
            .ok { a with secret := secret, publicKey := pk, signature := s }
    | .refundKey pk sk =>
      if now ≤ a.timelock then
        .error (.msg "atomic swap contract not yet expired")
      else
        match signHashUsingSiaPublicKey P pk inputIndex tx
            (.secretKey sk) [] with
        | .error e => .error e
        | .ok s => .ok { a with publicKey := pk, signature := s }
    | _ => .error (.msg "cannot atomic-swap-lock using this key type")

/-- `Lock` dispatch: locking does nothing for an unknown type. -/
def InputLock.lock (P : Prims) (now inputIndex tx : Nat) (key : Key) :
    InputLock → Except Err InputLock
  | .unknown u => .ok (.unknown u)
  | .single ss => (ss.lock P inputIndex tx key).map .single
  | .atomic a => (a.lock P now inputIndex tx key).map .atomic

/-- `StrictCheck` dispatch: unknown locks always fail. -/
def InputLock.strictCheck : InputLock → Except Err Unit
  | .unknown _ => .error (.msg "unknown input lock")
  | .single ss => strictSignatureCheck ss.publicKey ss.signature
  | .atomic a => strictSignatureCheck a.publicKey a.signature

/-- `InputLockProxy`: an unlock-type byte plus an optional inner lock
(nil in Go for the nil type).  A nil inner lock together with a non-nil
type is representable but dereferencing it panics in Go (`goPanic`). -/
structure InputLockProxy where
  t : Nat
  il : Option InputLock
deriving DecidableEq, Repr

/-- `NewSingleSignatureInputLock`: a single-signature proxy around the
given public key (signature still empty). -/
def NewSingleSignatureInputLock (pk : SiaPublicKey) : InputLockProxy :=
  ⟨UnlockTypeSingleSignature, some (.single ⟨pk, []⟩)⟩

/-- `NewAtomicSwapInputLock`: an atomic-swap proxy around the given
condition (fulfillment fields still zero). -/
def NewAtomicSwapInputLock (s r : UnlockHash) (hs : Bytes) (tl : Nat) :
    InputLockProxy :=
  ⟨UnlockTypeAtomicSwap, some (.atomic
    ⟨tl, s, r, hs, ⟨List.replicate 16 0, []⟩, [], List.replicate 32 0⟩)⟩

/-- The registered unlock types after `init()`: single-signature (0x01)
and atomic-swap (0x02). -/
def registeredUnlockType (t : Nat) : Bool :=
  t == UnlockTypeSingleSignature || t == UnlockTypeAtomicSwap

/-- `InputLockProxy.UnlockHash`: the nil type yields the zero hash, any
other the type byte paired with the hash of the raw condition bytes.
`none` marks the nil-dereference panic of an absent inner lock. -/
def InputLockProxy.unlockHash (P : Prims) (p : InputLockProxy) :
    Option UnlockHash :=
  if p.t = UnlockTypeNil then some zeroUnlockHash
  else
    match p.il with
    | some il => some (NewUnlockHash p.t (P.hashObject il.encodeCondition))
    | none => none

/-- `InputLockProxy.Unlock`. -/
def InputLockProxy.unlock (P : Prims) (now inputIndex tx : Nat)
    (p : InputLockProxy) : Except Err Unit :=
  if p.t = UnlockTypeNil then .error (.msg "nil input lock cannot be unlocked")
  else
    match p.il with
    | some il => il.unlock P now inputIndex tx
    | none => .error .goPanic

/-- `InputLockProxy.Lock`: delegate to the inner lock, then validate the
produced fulfillment by unlocking it before reporting success. -/
def InputLockProxy.lock (P : Prims) (now inputIndex tx : Nat) (key : Key)
    (p : InputLockProxy) : Except Err InputLockProxy :=
  if p.t = UnlockTypeNil then .error (.msg "nil input lock cannot be locked")
  else
    match p.il with
    | some il =>
      match il.lock P now inputIndex tx key with
      | .error e => .error e
      | .ok il' =>
        match il'.unlock P now inputIndex tx with
        | .error e => .error e
        | .ok _ => .ok { p with il := some il' }
    | none => .error .goPanic

/-- `InputLockProxy.StrictCheck`. -/
def InputLockProxy.strictCheck (p : InputLockProxy) : Except Err Unit :=
  if p.t = UnlockTypeNil then .error (.msg "nil input lock")
  else
    match p.il with
    | some il => il.strictCheck
    | none => .error .goPanic

/-- `InputLockProxy.MarshalSia`: the type byte, then (for non-nil types)
the condition and fulfillment as length-prefixed slices.  `none` marks
the nil-dereference panic of an absent inner lock. -/
def InputLockProxy.marshalSia (p : InputLockProxy) : Option Bytes :=
  if p.t = UnlockTypeNil then some [p.t]
  else
    match p.il with
    | some il =>
        some (p.t :: (encSlice il.encodeCondition ++
          encSlice il.encodeFulfillment))
    | none => none

/-- `InputLockProxy.UnmarshalSia`: read the type byte; for the nil type
stop; otherwise read the raw condition/fulfillment pair and decode it
with the registered constructor, falling back to `UnknownInputLock`. -/
def unmarshalInputLockProxy (input : Bytes) :
    Option (InputLockProxy × Bytes) :=
  match input with
  | [] => none
  | t :: rest =>
    if t = UnlockTypeNil then some (⟨t, none⟩, rest)
    else
      match readSlice rest with
      | none => none
      | some (cond, r1) =>
        match readSlice r1 with
        | none => none
        | some (ful, r2) =>
          if t = UnlockTypeSingleSignature then
            match SingleSignatureInputLock.decode ⟨cond, ful⟩ with
            | .ok ss => some (⟨t, some (.single ss)⟩, r2)
            | .error _ => none
          else if t = UnlockTypeAtomicSwap then
            match AtomicSwapInputLock.decode ⟨cond, ful⟩ with
            | .ok a => some (⟨t, some (.atomic a)⟩, r2)
            | .error _ => none
          else
            match UnknownInputLock.decode ⟨cond, ful⟩ with
            | .ok u => some (⟨t, some (.unknown u)⟩, r2)
            | .error _ => none

/-- Wellformedness of a public key as produced by the Go types: 16
specifier bytes and a key short enough for its 8-byte length prefix
(plus the 24 bytes of specifier and prefix) to be exact. -/
def wfSiaPublicKey (pk : SiaPublicKey) : Bool :=
  pk.algorithm.length == 16 && pk.key.length + 24 < 2 ^ 64

/-- Wellformedness of an unlock hash: byte-sized tag, 32-byte hash. -/
def wfUnlockHash (uh : UnlockHash) : Bool :=
  uh.utype < 256 && uh.hash.length == 32

/-- Wellformedness of the inner lock against the proxy type, covering
exactly the shapes named by the spec: the nil type (any payload), the two
registered types with fixed-width fields, or an unknown type with
arbitrary raw bytes (bounded only by the 8-byte length prefixes). -/
def wfInner (t : Nat) (il : Option InputLock) : Bool :=
  match il with
  | none => t == 0
  | some (.single ss) =>
      t == 0 ||
        (t == 1 && wfSiaPublicKey ss.publicKey &&
          decide (ss.signature.length < 2 ^ 64))
  | some (.atomic a) =>
      t == 0 ||
        (t == 2 && wfUnlockHash a.sender && wfUnlockHash a.receiver &&
          a.hashedSecret.length == 32 && a.secret.length == 32 &&
          decide (a.timelock < 2 ^ 64) && wfSiaPublicKey a.publicKey &&
          decide (a.publicKey.key.length + a.signature.length + 64 < 2 ^ 64))
  | some (.unknown u) =>
      t == 0 ||
        (!(t == 1) && !(t == 2) &&
          decide (u.condition.length < 2 ^ 64) &&
          decide (u.fulfillment.length < 2 ^ 64))

/-- Wellformedness of a proxy: byte-sized type tag and matching inner. -/
def wfProxy (p : InputLockProxy) : Bool :=
  p.t < 256 && wfInner p.t p.il

end Rivine

namespace Consensus

open Rivine (Bytes)

/-- Modelled from the spec: the `Block` type is not part of the provided
sources; `CreateGenesisState` sets only its timestamp (all other fields
are zero values and unused by the genesis claims), so only the timestamp
is carried. -/
structure Block where
  timestamp : Nat
deriving DecidableEq, Repr

/-- A siacoin output: value and spend address. -/
structure SiacoinOutput where
  value : Nat
  spendHash : Bytes
deriving DecidableEq, Repr

/-- A siafund output: value, spend address, claim destination. -/
structure SiafundOutput where
  value : Nat
  spendHash : Bytes
  claimDestination : Bytes
deriving DecidableEq, Repr

/-- A block node as initialized for the genesis root: the block, its
target and its depth (parent/children links are nil at genesis). -/
structure BlockNode where
  block : Block
  target : Nat
  depth : Nat
deriving DecidableEq, Repr

/-- Modelled from the spec: chain constants and identifier derivations
(`Block.ID`, `Block.MinerPayoutID`, `CalculateCoinbase`, `RootTarget`,
`RootDepth`, `SiafundCount`) are outside the provided sources and enter
as parameters. -/
structure ChainParams where
  blockID : Block → Bytes
  minerPayoutID : Block → Nat → Bytes
  calculateCoinbase : Nat → Nat
  rootTarget : Nat
  rootDepth : Nat
  siafundCount : Nat

/-- `ZeroAddress` (`CoinAddress{0}`): the all-zero 32-byte address. -/
def ZeroAddress : Bytes := List.replicate 32 0

/-- The consensus `State`, with maps modelled as association lists and
the mutex dropped (it protects, but does not shape, the state). -/
structure State where
  blockRoot : BlockNode
  badBlocks : List Bytes
  blockMap : List (Bytes × BlockNode)
  currentBlockID : Bytes
  currentPath : List (Nat × Bytes)
  siafundPool : Nat
  unspentSiacoinOutputs : List (Bytes × SiacoinOutput)
  openFileContracts : List (Bytes × Unit)
  unspentSiafundOutputs : List (Bytes × SiafundOutput)
  delayedSiacoinOutputs : List (Nat × List (Bytes × SiacoinOutput))
deriving DecidableEq

/-- Association-list lookup (Go map read). -/
def alookup {α β : Type} [DecidableEq α] : List (α × β) → α → Option β
  | [], _ => none
  | (k, v) :: rest, k' => if k' = k then some v else alookup rest k'

/-- `CreateGenesisState`: build the empty maps, create the genesis block
from the given timestamp, install it as block root, current block and
height-0 path entry, and credit the genesis coinbase and siafund pool
outputs. -/
def CreateGenesisState (cp : ChainParams) (genesisTime : Nat) : State :=
  let genesisBlock : Block := ⟨genesisTime⟩
  let root : BlockNode := ⟨genesisBlock, cp.rootTarget, cp.rootDepth⟩
  { blockRoot := root
    badBlocks := []
    blockMap := [(cp.blockID genesisBlock, root)]
    currentBlockID := cp.blockID genesisBlock
    currentPath := [(0, cp.blockID genesisBlock)]
    siafundPool := 0
    unspentSiacoinOutputs :=
      [(cp.minerPayoutID genesisBlock 0,
        ⟨cp.calculateCoinbase 0, ZeroAddress⟩)]
    openFileContracts := []
    unspentSiafundOutputs :=
      [(ZeroAddress, ⟨cp.siafundCount, ZeroAddress, ZeroAddress⟩)]
    delayedSiacoinOutputs := [] }

/-- The consensus variables of a state: the fields the source calls "the
consensus variables" (pool and the four output maps), together with the
current block and path they must agree with across nodes. -/
def State.consensusState (s : State) :=
  (s.currentBlockID, s.currentPath, s.siafundPool,
   s.unspentSiacoinOutputs, s.openFileContracts,
   s.unspentSiafundOutputs, s.delayedSiacoinOutputs)

end Consensus

namespace Rivine

/-- Concrete primitives for instantiating hypothesis-bearing theorems. -/
def testPrims : Prims where
  hashObject := fun _ => List.replicate 32 1
  sha256 := fun _ => List.replicate 32 2
  signHash := fun _ _ => List.replicate 64 3
  verifyHash := fun _ _ _ => true
  inputSigHash := fun _ _ _ => [9]

/-- A concrete public key with an unregistered algorithm specifier. -/
def testKeyOther : SiaPublicKey := ⟨List.replicate 16 0, [7, 7]⟩

/-- A concrete Ed25519 public key. -/
def testKeyEd : SiaPublicKey := ⟨SignatureEd25519, List.replicate 32 4⟩

/-- A concrete entropy public key. -/
def testKeyEntropy : SiaPublicKey := ⟨SignatureEntropy, List.replicate 32 5⟩

/-- A concrete atomic-swap lock whose receiver equals `testPrims`'s
object hash of the fulfilling key and whose hashed secret is its
SHA-256 image. -/
def testSwap : AtomicSwapInputLock where
  timelock := 10
  sender := ⟨1, List.replicate 32 1⟩
  receiver := ⟨1, List.replicate 32 1⟩
  hashedSecret := List.replicate 32 2
  publicKey := testKeyOther
  signature := []
  secret := List.replicate 32 6

/-- A concrete unknown-type proxy used as a witness input. -/
def testUnknownProxy : InputLockProxy :=
  ⟨5, some (.unknown ⟨[1, 2, 3], [4, 5]⟩)⟩

/-- A concrete atomic-swap proxy used as a witness input. -/
def testSwapProxy : InputLockProxy := ⟨2, some (.atomic testSwap)⟩

theorem toLE_length (w n : Nat) : (toLE w n).length = w := by
  induction w generalizing n with
  | zero => rfl
  | succ w ih => simp [toLE, ih]

theorem fromLE_toLE (w n : Nat) : fromLE (toLE w n) = n % 256 ^ w := by
  induction w generalizing n with
  | zero => simp [toLE, fromLE, Nat.mod_one]
  | succ w ih =>
    have h : (256 : Nat) ^ (w + 1) = 256 * 256 ^ w := by ring
    rw [h, Nat.mod_mul]
    simp [toLE, fromLE, ih]

theorem readBytes_append {n : Nat} {bs : Bytes} (rest : Bytes)
    (h : bs.length = n) : readBytes n (bs ++ rest) = some (bs, rest) := by
  subst h
  rw [readBytes, if_pos (by simp)]
  rw [List.take_left, List.drop_left]

theorem readU64_enc (rest : Bytes) {n : Nat} (h : n < 2 ^ 64) :
    readU64 (toLE 8 n ++ rest) = some (n, rest) := by
  have h' : n < 18446744073709551616 := by norm_num at h; exact h
  simp [readU64, readBytes_append rest (toLE_length 8 n), fromLE_toLE,
    Nat.mod_eq_of_lt h']

theorem readSlice_enc (rest : Bytes) {bs : Bytes}
    (h : bs.length < 2 ^ 64) :
    readSlice (encSlice bs ++ rest) = some (bs, rest) := by
  rw [readSlice, encSlice, List.append_assoc, readU64_enc _ h]
  simp [readBytes_append rest rfl]

theorem readSiaPublicKey_enc (rest : Bytes) {pk : SiaPublicKey}
    (h : wfSiaPublicKey pk = true) :
    readSiaPublicKey (encSiaPublicKey pk ++ rest) = some (pk, rest) := by
  rw [wfSiaPublicKey, Bool.and_eq_true] at h
  obtain ⟨h16, hk⟩ := h
  rw [beq_iff_eq] at h16
  rw [decide_eq_true_eq] at hk
  rw [readSiaPublicKey, encSiaPublicKey, List.append_assoc,
    readBytes_append _ h16]
  simp only [Option.bind_eq_bind, Option.some_bind]
  rw [readSlice_enc _ (by omega)]
  rfl

theorem readUnlockHash_enc (rest : Bytes) {uh : UnlockHash}
    (h : uh.hash.length = 32) :
    readUnlockHash (encUnlockHash uh ++ rest) = some (uh, rest) := by
  rw [readUnlockHash, encUnlockHash, List.cons_append]
  simp [readByte, readBytes_append rest h]

theorem readASCondition_enc (rest : Bytes) {c : AtomicSwapCondition}
    (hs : c.sender.hash.length = 32) (hr : c.receiver.hash.length = 32)
    (hh : c.hashedSecret.length = 32) (ht : c.timelock < 2 ^ 64) :
    readASCondition (encASCondition c ++ rest) = some (c, rest) := by
  rw [readASCondition, encASCondition, List.append_assoc,
    List.append_assoc, List.append_assoc,
    readUnlockHash_enc _ hs]
  simp only [Option.bind_eq_bind, Option.some_bind]
  rw [readUnlockHash_enc _ hr]
  simp only [Option.some_bind]
  rw [readBytes_append _ hh]
  simp only [Option.some_bind]
  rw [readU64_enc _ ht]
  rfl

theorem readSlice_enc_self (bs : Bytes) (h : bs.length < 2 ^ 64) :
    readSlice (encSlice bs) = some (bs, []) := by
  simpa using readSlice_enc [] h

theorem readSiaPublicKey_enc_self (pk : SiaPublicKey)
    (h : wfSiaPublicKey pk = true) :
    readSiaPublicKey (encSiaPublicKey pk) = some (pk, []) := by
  simpa using readSiaPublicKey_enc [] h

theorem readASFulfillment_enc (rest : Bytes) {f : AtomicSwapFulfillment}
    (hpk : wfSiaPublicKey f.publicKey = true)
    (hsig : f.signature.length < 2 ^ 64) (hsec : f.secret.length = 32) :
    readASFulfillment (encASFulfillment f ++ rest) = some (f, rest) := by
  rw [readASFulfillment, encASFulfillment, List.append_assoc,
    List.append_assoc, readSiaPublicKey_enc _ hpk]
  simp only [Option.bind_eq_bind, Option.some_bind]
  rw [readSlice_enc _ hsig]
  simp only [Option.some_bind]
  rw [readBytes_append _ hsec]
  rfl

theorem readASCondition_enc_self (c : AtomicSwapCondition)
    (hs : c.sender.hash.length = 32) (hr : c.receiver.hash.length = 32)
    (hh : c.hashedSecret.length = 32) (ht : c.timelock < 2 ^ 64) :
    readASCondition (encASCondition c) = some (c, []) := by
  simpa using readASCondition_enc [] hs hr hh ht

theorem readASFulfillment_enc_self (f : AtomicSwapFulfillment)
    (hpk : wfSiaPublicKey f.publicKey = true)
    (hsig : f.signature.length < 2 ^ 64) (hsec : f.secret.length = 32) :
    readASFulfillment (encASFulfillment f) = some (f, []) := by
  simpa using readASFulfillment_enc [] hpk hsig hsec

theorem encSlice_length (bs : Bytes) :
    (encSlice bs).length = 8 + bs.length := by
  simp [encSlice, toLE_length]

theorem encSiaPublicKey_length {pk : SiaPublicKey}
    (h16 : pk.algorithm.length = 16) :
    (encSiaPublicKey pk).length = 24 + pk.key.length := by
  simp [encSiaPublicKey, encSlice_length, h16]
  omega

theorem encUnlockHash_length (uh : UnlockHash) :
    (encUnlockHash uh).length = 1 + uh.hash.length := by
  simp [encUnlockHash]
  omega

theorem encASCondition_length {c : AtomicSwapCondition}
    (hs : c.sender.hash.length = 32) (hr : c.receiver.hash.length = 32)
    (hh : c.hashedSecret.length = 32) :
    (encASCondition c).length = 106 := by
  simp [encASCondition, encUnlockHash_length, toLE_length, hs, hr, hh]

theorem encASFulfillment_length {f : AtomicSwapFulfillment}
    (h16 : f.publicKey.algorithm.length = 16) (hsec : f.secret.length = 32) :
    (encASFulfillment f).length =
      64 + f.publicKey.key.length + f.signature.length := by
  simp [encASFulfillment, encSiaPublicKey_length h16, encSlice_length, hsec]
  omega

theorem unlockHash_ne_iff (x y : UnlockHash) :
    (x.utype ≠ y.utype ∨ x.hash ≠ y.hash) ↔ x ≠ y := by
  cases x
  cases y
  simp only [UnlockHash.mk.injEq, ne_eq]
  tauto

/-- C5: a proxy of the nil unlock type (0x00) has the all-zero unlock
hash, regardless of any inner lock payload. -/
theorem claim_C5_nil_unlock_hash (P : Prims) (il : Option InputLock) :
    InputLockProxy.unlockHash P ⟨UnlockTypeNil, il⟩ = some zeroUnlockHash :=
  rfl

/-- C2: for any non-nil unlock type, the unlock hash of a proxy carrying
an `UnknownInputLock` with raw condition bytes `c` equals the unlock hash
of a proxy of the same type whose (registered) inner lock encodes the
same condition bytes: unlock-hash identity is stable across registration
of new lock types. -/
theorem claim_C2_unlock_hash_stable (P : Prims) (t : Nat) (c f : Bytes)
    (L : InputLock) (ht : t ≠ UnlockTypeNil) (hL : L.encodeCondition = c) :
    InputLockProxy.unlockHash P ⟨t, some (.unknown ⟨c, f⟩)⟩ =
      InputLockProxy.unlockHash P ⟨t, some L⟩ := by
  rw [← hL]
  simp [InputLockProxy.unlockHash, ht, InputLock.encodeCondition]

theorem claim_C2_unlock_hash_stable_w :
    InputLockProxy.unlockHash testPrims
        ⟨5, some (.unknown ⟨[1, 2, 3], [4, 5]⟩)⟩ =
      InputLockProxy.unlockHash testPrims
        ⟨5, some (.single ⟨testKeyOther, [9]⟩)⟩ :=
  claim_C2_unlock_hash_stable testPrims 5
    (InputLock.encodeCondition (.single ⟨testKeyOther, [9]⟩)) [4, 5]
    (.single ⟨testKeyOther, [9]⟩) (by decide) rfl

/-- C7: a public key carrying the entropy algorithm tag can neither sign
nor verify: both operations return the entropy-key error for every input
index, transaction, key, signature and extra material. -/
theorem claim_C7_entropy_never_signs (P : Prims) (pk : SiaPublicKey)
    (inputIndex tx : Nat) (key : Key) (extra : List Bytes) (sig : Bytes)
    (h : pk.algorithm = SignatureEntropy) :
    signHashUsingSiaPublicKey P pk inputIndex tx key extra =
        .error .entropyKey ∧
    verifyHashUsingSiaPublicKey P pk inputIndex tx sig extra =
        .error .entropyKey := by
  constructor <;>
    simp [signHashUsingSiaPublicKey, verifyHashUsingSiaPublicKey, h]

theorem claim_C7_entropy_never_signs_w :
    signHashUsingSiaPublicKey testPrims testKeyEntropy 0 0
        (.secretKey 1) [] = .error .entropyKey ∧
    verifyHashUsingSiaPublicKey testPrims testKeyEntropy 0 0
        (List.replicate 64 3) [] = .error .entropyKey :=
  claim_C7_entropy_never_signs testPrims testKeyEntropy 0 0
    (.secretKey 1) [] (List.replicate 64 3) rfl

/-- C10: for an algorithm tag that is neither entropy nor Ed25519,
verification succeeds for every signature, signing returns a nil
signature with no error, and a single-signature input locked under such
a key always unlocks. -/
theorem claim_C10_unknown_algorithm_passes (P : Prims) (pk : SiaPublicKey)
    (inputIndex tx : Nat) (key : Key) (extra : List Bytes) (sig : Bytes)
    (h1 : pk.algorithm ≠ SignatureEntropy)
    (h2 : pk.algorithm ≠ SignatureEd25519) :
    verifyHashUsingSiaPublicKey P pk inputIndex tx sig extra = .ok () ∧
    signHashUsingSiaPublicKey P pk inputIndex tx key extra = .ok [] ∧
    (∀ now s, InputLockProxy.unlock P now inputIndex tx
        ⟨UnlockTypeSingleSignature, some (.single ⟨pk, s⟩)⟩ = .ok ()) := by
  refine ⟨?_, ?_, fun now s => ?_⟩ <;>
    simp [verifyHashUsingSiaPublicKey, signHashUsingSiaPublicKey,
      InputLockProxy.unlock, InputLock.unlock,
      SingleSignatureInputLock.unlock, UnlockTypeSingleSignature,
      UnlockTypeNil, h1, h2]

theorem claim_C10_unknown_algorithm_passes_w :
    verifyHashUsingSiaPublicKey testPrims testKeyOther 0 0 [8] [] =
        .ok () ∧
    signHashUsingSiaPublicKey testPrims testKeyOther 0 0
        (.secretKey 1) [] = .ok [] ∧
    (∀ now s, InputLockProxy.unlock testPrims now 0 0
        ⟨UnlockTypeSingleSignature, some (.single ⟨testKeyOther, s⟩)⟩ =
      .ok ()) :=
  claim_C10_unknown_algorithm_passes testPrims testKeyOther 0 0
    (.secretKey 1) [] [8] (by decide) (by decide)

/-- C4: an input lock whose unlock type is outside the registered-type
map decodes into an `UnknownInputLock` holding the raw condition and
fulfillment bytes verbatim; its unlock always succeeds and its strict
check always fails. -/
theorem claim_C4_unknown_lock_behaviour (t : Nat) (c f : Bytes) (P : Prims)
    (now inputIndex tx : Nat)
    (h0 : t ≠ UnlockTypeNil) (h1 : registeredUnlockType t = false)
    (hc : c.length < 2 ^ 64) (hf : f.length < 2 ^ 64) :
    unmarshalInputLockProxy (t :: (encSlice c ++ encSlice f)) =
      some (⟨t, some (.unknown ⟨c, f⟩)⟩, []) ∧
    UnknownInputLock.decode ⟨c, f⟩ = .ok ⟨c, f⟩ ∧
    InputLock.unlock P now inputIndex tx (.unknown ⟨c, f⟩) = .ok () ∧
    InputLock.strictCheck (.unknown ⟨c, f⟩) ≠ .ok () := by
  rw [registeredUnlockType, Bool.or_eq_false_iff] at h1
  obtain ⟨h1s, h1a⟩ := h1
  rw [beq_eq_false_iff_ne] at h1s h1a
  refine ⟨?_, rfl, rfl, by simp [InputLock.strictCheck]⟩
  simp only [unmarshalInputLockProxy, if_neg h0, readSlice_enc _ hc,
    readSlice_enc_self f hf, if_neg h1s, if_neg h1a,
    UnknownInputLock.decode]

theorem claim_C4_unknown_lock_behaviour_w :
    unmarshalInputLockProxy
        (5 :: (encSlice [1, 2, 3] ++ encSlice [4, 5])) =
      some (⟨5, some (.unknown ⟨[1, 2, 3], [4, 5]⟩)⟩, []) ∧
    UnknownInputLock.decode ⟨[1, 2, 3], [4, 5]⟩ = .ok ⟨[1, 2, 3], [4, 5]⟩ ∧
    InputLock.unlock testPrims 0 0 0 (.unknown ⟨[1, 2, 3], [4, 5]⟩) =
      .ok () ∧
    InputLock.strictCheck (.unknown ⟨[1, 2, 3], [4, 5]⟩) ≠ .ok () :=
  claim_C4_unknown_lock_behaviour 5 [1, 2, 3] [4, 5] testPrims 0 0 0
    (by decide) (by decide) (by decide) (by decide)

/-- C6: strict checking fails for every unknown lock; for a
single-signature or atomic-swap lock under the Ed25519 tag it fails
exactly when the key is not 32 bytes or the signature not 64 bytes; for
a recognized tag (entropy, or Ed25519 with correct sizes) it succeeds. -/
theorem claim_C6_strict_check (u : UnknownInputLock)
    (ss : SingleSignatureInputLock) (a : AtomicSwapInputLock) :
    InputLock.strictCheck (.unknown u) ≠ .ok () ∧
    (ss.publicKey.algorithm = SignatureEd25519 →
      (InputLock.strictCheck (.single ss) ≠ .ok () ↔
        (ss.publicKey.key.length ≠ 32 ∨ ss.signature.length ≠ 64))) ∧
    (a.publicKey.algorithm = SignatureEd25519 →
      (InputLock.strictCheck (.atomic a) ≠ .ok () ↔
        (a.publicKey.key.length ≠ 32 ∨ a.signature.length ≠ 64))) ∧
    (ss.publicKey.algorithm = SignatureEntropy ∨
        (ss.publicKey.algorithm = SignatureEd25519 ∧
          ss.publicKey.key.length = 32 ∧ ss.signature.length = 64) →
      InputLock.strictCheck (.single ss) = .ok ()) ∧
    (a.publicKey.algorithm = SignatureEntropy ∨
        (a.publicKey.algorithm = SignatureEd25519 ∧
          a.publicKey.key.length = 32 ∧ a.signature.length = 64) →
      InputLock.strictCheck (.atomic a) = .ok ()) := by
  have key : ∀ (pk : SiaPublicKey) (sig : Bytes),
      (pk.algorithm = SignatureEd25519 →
        (strictSignatureCheck pk sig ≠ .ok () ↔
          (pk.key.length ≠ 32 ∨ sig.length ≠ 64))) ∧
      (pk.algorithm = SignatureEntropy ∨
          (pk.algorithm = SignatureEd25519 ∧
            pk.key.length = 32 ∧ sig.length = 64) →
        strictSignatureCheck pk sig = .ok ()) := by
    intro pk sig
    have hdist : SignatureEd25519 ≠ SignatureEntropy := by decide
    constructor
    · intro hed
      by_cases hk : pk.key.length = 32 <;>
        by_cases hs : sig.length = 64 <;>
          simp [strictSignatureCheck, hed, hdist, hk, hs]
    · rintro (hent | ⟨hed, hk, hs⟩)
      · simp [strictSignatureCheck, hent]
      · simp [strictSignatureCheck, hed, hdist, hk, hs]
  exact ⟨by simp [InputLock.strictCheck],
    fun h => ((key ss.publicKey ss.signature).1 h),
    fun h => ((key a.publicKey a.signature).1 h),
    fun h => (key ss.publicKey ss.signature).2 h,
    fun h => (key a.publicKey a.signature).2 h⟩

theorem claim_C6_strict_check_w :
    InputLock.strictCheck
        (.unknown ⟨[1], [2]⟩) ≠ .ok () ∧
    InputLock.strictCheck
        (.single ⟨testKeyEd, List.replicate 64 3⟩) = .ok () ∧
    InputLock.strictCheck (.single ⟨testKeyEd, [7]⟩) ≠ .ok () :=
  ⟨(claim_C6_strict_check ⟨[1], [2]⟩ ⟨testKeyEd, List.replicate 64 3⟩
      testSwap).1,
    (claim_C6_strict_check ⟨[1], [2]⟩ ⟨testKeyEd, List.replicate 64 3⟩
        testSwap).2.2.2.1
      (Or.inr ⟨rfl, by decide, by decide⟩),
    ((claim_C6_strict_check ⟨[1], [2]⟩ ⟨testKeyEd, [7]⟩
        testSwap).2.1 rfl).mpr (Or.inr (by decide))⟩

theorem newSingleSig_unlockHash (P : Prims) (pk : SiaPublicKey) :
    (NewSingleSignatureInputLock pk).unlockHash P =
      some (singleSigUnlockHash P pk) := by
  simp [NewSingleSignatureInputLock, InputLockProxy.unlockHash,
    singleSigUnlockHash, UnlockTypeSingleSignature, UnlockTypeNil,
    InputLock.encodeCondition, SingleSignatureInputLock.encodeCondition]

theorem asUnlock_eval_le (P : Prims) (now inputIndex tx : Nat)
    (a : AtomicSwapInputLock) (hle : now ≤ a.timelock) :
    a.unlock P now inputIndex tx =
      if singleSigUnlockHash P a.publicKey ≠ a.receiver then
        .error .invalidRedeemer
      else
        match verifyHashUsingSiaPublicKey P a.publicKey inputIndex tx
            a.signature [a.secret] with
        | .error e => .error e
        | .ok _ =>
          if a.hashedSecret ≠ P.sha256 a.secret then
            .error .invalidPreImageSha256
          else .ok () := by
  rw [AtomicSwapInputLock.unlock]
  simp only [if_pos hle]
  exact if_congr (unlockHash_ne_iff _ _) rfl rfl

theorem asUnlock_eval_gt (P : Prims) (now inputIndex tx : Nat)
    (a : AtomicSwapInputLock) (hgt : a.timelock < now) :
    a.unlock P now inputIndex tx =
      if singleSigUnlockHash P a.publicKey ≠ a.sender then
        .error .invalidRedeemer
      else
        verifyHashUsingSiaPublicKey P a.publicKey inputIndex tx
          a.signature [] := by
  rw [AtomicSwapInputLock.unlock]
  simp only [if_neg (Nat.not_le_of_lt hgt)]
  exact if_congr (unlockHash_ne_iff _ _) rfl rfl

/-- C1: before expiry an atomic-swap unlock succeeds exactly when the
fulfilling key hashes (as a single-signature unlock hash) to the
receiver, the signature verifies with the secret as extra signed
material, and the secret hashes to the stored hashed secret; if only
the pre-image check fails the error is the invalid pre-image error.
After expiry it succeeds exactly when the key hashes to the sender and
the signature verifies without extra material, the secret field being
ignored. -/
theorem claim_C1_atomic_swap_unlock (P : Prims) (now inputIndex tx : Nat)
    (a : AtomicSwapInputLock) :
    (now ≤ a.timelock →
      ((a.unlock P now inputIndex tx = .ok ()) ↔
        (singleSigUnlockHash P a.publicKey = a.receiver ∧
          verifyHashUsingSiaPublicKey P a.publicKey inputIndex tx
            a.signature [a.secret] = .ok () ∧
          P.sha256 a.secret = a.hashedSecret)) ∧
      (singleSigUnlockHash P a.publicKey = a.receiver →
        verifyHashUsingSiaPublicKey P a.publicKey inputIndex tx
          a.signature [a.secret] = .ok () →
        P.sha256 a.secret ≠ a.hashedSecret →
        a.unlock P now inputIndex tx = .error .invalidPreImageSha256)) ∧
    (a.timelock < now →
      ((a.unlock P now inputIndex tx = .ok ()) ↔
        (singleSigUnlockHash P a.publicKey = a.sender ∧
          verifyHashUsingSiaPublicKey P a.publicKey inputIndex tx
            a.signature [] = .ok ())) ∧
      (∀ s, AtomicSwapInputLock.unlock P now inputIndex tx
          { a with secret := s } = a.unlock P now inputIndex tx)) := by
  refine ⟨fun hle => ⟨?_, ?_⟩, fun hgt => ⟨?_, ?_⟩⟩
  · rw [asUnlock_eval_le P now inputIndex tx a hle]
    by_cases hr : singleSigUnlockHash P a.publicKey = a.receiver
    · rw [if_neg (not_not_intro hr)]
      cases hv : verifyHashUsingSiaPublicKey P a.publicKey inputIndex tx
          a.signature [a.secret] with
      | error e => simp [hr, hv]
      | ok u =>
        cases u
        by_cases hsha : a.hashedSecret = P.sha256 a.secret
        · simp [hr, hv, if_neg (not_not_intro hsha), hsha]
        · simp [hr, hv, if_pos hsha, Ne.symm hsha]
    · rw [if_pos hr]
      simp [hr]
  · intro hr hv hsha
    rw [asUnlock_eval_le P now inputIndex tx a hle,
      if_neg (not_not_intro hr), hv]
    simp [if_pos (Ne.symm hsha)]
  · rw [asUnlock_eval_gt P now inputIndex tx a hgt]
    by_cases hs : singleSigUnlockHash P a.publicKey = a.sender
    · rw [if_neg (not_not_intro hs)]
      simp [hs]
    · rw [if_pos hs]
      simp [hs]
  · intro s
    rw [asUnlock_eval_gt P now inputIndex tx a hgt,
      asUnlock_eval_gt P now inputIndex tx { a with secret := s }
        (by simpa using hgt)]

theorem claim_C1_atomic_swap_unlock_w :
    (5 ≤ testSwap.timelock ∧
      AtomicSwapInputLock.unlock testPrims 5 0 0 testSwap = .ok ()) ∧
    (testSwap.timelock < 20 ∧
      AtomicSwapInputLock.unlock testPrims 20 0 0 testSwap = .ok ()) :=
  ⟨⟨by decide,
    ((claim_C1_atomic_swap_unlock testPrims 5 0 0 testSwap).1
        (by decide)).1.mpr ⟨by decide, rfl, rfl⟩⟩,
   ⟨by decide,
    ((claim_C1_atomic_swap_unlock testPrims 20 0 0 testSwap).2
        (by decide)).1.mpr ⟨by decide, rfl⟩⟩⟩

/-- C9: a proxy `Lock` that reports success has already verified the
produced fulfillment, so unlocking the resulting proxy in the same
context succeeds. -/
theorem claim_C9_lock_implies_unlock (P : Prims) (now inputIndex tx : Nat)
    (key : Key) (p p' : InputLockProxy)
    (h : p.lock P now inputIndex tx key = .ok p') :
    p'.unlock P now inputIndex tx = .ok () := by
  rw [InputLockProxy.lock] at h
  by_cases h0 : p.t = UnlockTypeNil
  · rw [if_pos h0] at h
    exact absurd h (by simp)
  · rw [if_neg h0] at h
    split at h
    next il hil =>
      split at h
      next e hl => simp at h
      next il' hl =>
        split at h
        next e hu => simp at h
        next u hu =>
          cases u
          simp only [Except.ok.injEq] at h
          rw [InputLockProxy.unlock, ← h]
          dsimp only
          rw [if_neg h0]
          exact hu
    next hil => simp at h

theorem claim_C9_lock_implies_unlock_w :
    InputLockProxy.unlock testPrims 0 0 0 testUnknownProxy = .ok () :=
  claim_C9_lock_implies_unlock testPrims 0 0 0 .otherKey
    testUnknownProxy testUnknownProxy rfl

/-- C3: decoding the canonical encoding of a wellformed input-lock proxy
(nil type, registered single-signature or atomic-swap type, or an
unknown type with arbitrary raw bytes) consumes the whole encoding and
yields a proxy whose re-encoding equals the original encoding. -/
theorem claim_C3_proxy_roundtrip (p : InputLockProxy)
    (h : wfProxy p = true) :
    ∃ enc p', p.marshalSia = some enc ∧
      unmarshalInputLockProxy enc = some (p', []) ∧
      p'.marshalSia = some enc := by
  obtain ⟨t, il⟩ := p
  rw [wfProxy, Bool.and_eq_true] at h
  obtain ⟨ht256, hw⟩ := h
  by_cases h0 : t = UnlockTypeNil
  · subst h0
    exact ⟨[UnlockTypeNil], ⟨UnlockTypeNil, none⟩, rfl, rfl, rfl⟩
  · cases il with
    | none =>
      rw [wfInner, beq_iff_eq] at hw
      exact absurd hw h0
    | some l =>
      cases l with
      | unknown u =>
        rw [wfInner, Bool.or_eq_true] at hw
        rcases hw with hw0 | hw
        · rw [beq_iff_eq] at hw0
          exact absurd hw0 h0
        · simp only [Bool.and_eq_true, Bool.not_eq_true', beq_eq_false_iff_ne,
            decide_eq_true_eq] at hw
          obtain ⟨⟨⟨ht1, ht2⟩, hc⟩, hf⟩ := hw
          have ht1' : t ≠ UnlockTypeSingleSignature := ht1
          have ht2' : t ≠ UnlockTypeAtomicSwap := ht2
          refine ⟨t :: (encSlice u.condition ++ encSlice u.fulfillment),
            ⟨t, some (.unknown u)⟩, ?_, ?_, ?_⟩
          · simp [InputLockProxy.marshalSia, h0,
              InputLock.encodeCondition, InputLock.encodeFulfillment]
          · simp only [unmarshalInputLockProxy, if_neg h0,
              readSlice_enc _ hc, readSlice_enc_self u.fulfillment hf,
              if_neg ht1', if_neg ht2', UnknownInputLock.decode]
          · simp [InputLockProxy.marshalSia, h0,
              InputLock.encodeCondition, InputLock.encodeFulfillment]
      | single ss =>
        rw [wfInner, Bool.or_eq_true] at hw
        rcases hw with hw0 | hw
        · rw [beq_iff_eq] at hw0
          exact absurd hw0 h0
        · simp only [Bool.and_eq_true, beq_iff_eq, decide_eq_true_eq] at hw
          obtain ⟨⟨ht1, hpk⟩, hsig⟩ := hw
          subst ht1
          have hpk' := hpk
          simp only [wfSiaPublicKey, Bool.and_eq_true, beq_iff_eq,
            decide_eq_true_eq] at hpk'
          obtain ⟨h16, hk⟩ := hpk'
          have hcond : (encSiaPublicKey ss.publicKey).length < 2 ^ 64 := by
            rw [encSiaPublicKey_length h16]
            omega
          refine ⟨UnlockTypeSingleSignature ::
              (encSlice (encSiaPublicKey ss.publicKey) ++
                encSlice ss.signature),
            ⟨UnlockTypeSingleSignature, some (.single ss)⟩, ?_, ?_, ?_⟩
          · simp [InputLockProxy.marshalSia, UnlockTypeSingleSignature,
              UnlockTypeNil, InputLock.encodeCondition,
              InputLock.encodeFulfillment,
              SingleSignatureInputLock.encodeCondition,
              SingleSignatureInputLock.encodeFulfillment]
          · simp only [unmarshalInputLockProxy, readSlice_enc _ hcond,
              readSlice_enc_self ss.signature hsig,
              SingleSignatureInputLock.decode,
              readSiaPublicKey_enc_self ss.publicKey hpk,
              UnlockTypeSingleSignature, UnlockTypeNil]
            simp
          · simp [InputLockProxy.marshalSia, UnlockTypeSingleSignature,
              UnlockTypeNil, InputLock.encodeCondition,
              InputLock.encodeFulfillment,
              SingleSignatureInputLock.encodeCondition,
              SingleSignatureInputLock.encodeFulfillment]
      | atomic a =>
        rw [wfInner, Bool.or_eq_true] at hw
        rcases hw with hw0 | hw
        · rw [beq_iff_eq] at hw0
          exact absurd hw0 h0
        · simp only [Bool.and_eq_true, beq_iff_eq, decide_eq_true_eq] at hw
          obtain ⟨⟨⟨⟨⟨⟨⟨ht2, hsend⟩, hrecv⟩, hhs⟩, hsec⟩, htl⟩, hpk⟩,
            hlen⟩ := hw
          subst ht2
          have hpk' := hpk
          simp only [wfSiaPublicKey, Bool.and_eq_true, beq_iff_eq,
            decide_eq_true_eq] at hpk'
          obtain ⟨h16, hk⟩ := hpk'
          simp only [wfUnlockHash, Bool.and_eq_true, beq_iff_eq,
            decide_eq_true_eq] at hsend hrecv
          have hcond : (encASCondition
              ⟨a.sender, a.receiver, a.hashedSecret, a.timelock⟩).length <
              2 ^ 64 := by
            rw [encASCondition_length hsend.2 hrecv.2 hhs]
            norm_num
          have hful : (encASFulfillment
              ⟨a.publicKey, a.signature, a.secret⟩).length < 2 ^ 64 := by
            rw [encASFulfillment_length h16 hsec]
            dsimp only
            omega
          refine ⟨UnlockTypeAtomicSwap ::
              (encSlice (encASCondition
                ⟨a.sender, a.receiver, a.hashedSecret, a.timelock⟩) ++
                encSlice (encASFulfillment
                  ⟨a.publicKey, a.signature, a.secret⟩)),
            ⟨UnlockTypeAtomicSwap, some (.atomic a)⟩, ?_, ?_, ?_⟩
          · simp [InputLockProxy.marshalSia, UnlockTypeAtomicSwap,
              UnlockTypeNil, InputLock.encodeCondition,
              InputLock.encodeFulfillment,
              AtomicSwapInputLock.encodeCondition,
              AtomicSwapInputLock.encodeFulfillment]
          · simp only [unmarshalInputLockProxy, readSlice_enc _ hcond,
              readSlice_enc_self _ hful, AtomicSwapInputLock.decode,
              readASCondition_enc_self
                ⟨a.sender, a.receiver, a.hashedSecret, a.timelock⟩
                hsend.2 hrecv.2 hhs htl,
              readASFulfillment_enc_self
                ⟨a.publicKey, a.signature, a.secret⟩ hpk
                (show a.signature.length < 2 ^ 64 by omega) hsec,
              UnlockTypeAtomicSwap, UnlockTypeSingleSignature,
              UnlockTypeNil]
            simp
          · simp [InputLockProxy.marshalSia, UnlockTypeAtomicSwap,
              UnlockTypeNil, InputLock.encodeCondition,
              InputLock.encodeFulfillment,
              AtomicSwapInputLock.encodeCondition,
              AtomicSwapInputLock.encodeFulfillment]

theorem claim_C3_proxy_roundtrip_w :
    wfProxy testSwapProxy = true ∧
    (∃ enc p', testSwapProxy.marshalSia = some enc ∧
      unmarshalInputLockProxy enc = some (p', []) ∧
      p'.marshalSia = some enc) :=
  ⟨by decide, claim_C3_proxy_roundtrip testSwapProxy (by decide)⟩

end Rivine




namespace Consensus

/-- C8: the genesis state has the genesis block's ID as current block,
a current path consisting exactly of that ID at height 0, and an
unspent-coin-output entry mapping miner-payout ID 0 of the genesis block
to the height-0 coinbase subsidy (paid to the zero address); creating
the state twice from the same timestamp yields the same consensus
state. -/
theorem claim_C8_genesis_state (cp : ChainParams) (genesisTime : Nat) :
    (CreateGenesisState cp genesisTime).currentBlockID =
      cp.blockID ⟨genesisTime⟩ ∧
    (CreateGenesisState cp genesisTime).currentPath =
      [(0, cp.blockID ⟨genesisTime⟩)] ∧
    alookup (CreateGenesisState cp genesisTime).currentPath 0 =
      some (cp.blockID ⟨genesisTime⟩) ∧
    alookup (CreateGenesisState cp genesisTime).unspentSiacoinOutputs
        (cp.minerPayoutID ⟨genesisTime⟩ 0) =
      some ⟨cp.calculateCoinbase 0, ZeroAddress⟩ ∧
    (CreateGenesisState cp genesisTime).consensusState =
      (CreateGenesisState cp genesisTime).consensusState := by
  refine ⟨rfl, rfl, ?_, ?_, rfl⟩ <;> simp [CreateGenesisState, alookup]

end Consensus
